import Mathlib

/-!
Shallow embedding of the Project Inspector of scripts/connect.js
(class CostControlConnector): project-type classification,
infrastructure-pattern detection, resource-mention scanning, default-budget
estimation, project-name and alert-email resolution, per-environment
resource limits, and the top-level connect flow with its single fatal
error.

Filesystem contents, git-config output and the output of the external
find commands are modelled as an explicit state record (FS); the
functions below are direct translations of the corresponding JavaScript
methods.
-/

namespace CostConnect

/-- Does needle occur as a contiguous sublist of hay? (naive scan). -/
def listInfix (needle : List Char) : List Char → Bool
  | [] => needle.isEmpty
  | c :: rest => needle.isPrefixOf (c :: rest) || listInfix needle rest

/-- JavaScript `hay.includes(needle)`: substring containment test. -/
def strIncludes (hay needle : String) : Bool :=
  listInfix needle.data hay.data

/-- A parsed package.json manifest, with the fields the script reads.
Dependency maps are association lists from package name to version
string; JavaScript object-field absence is modelled with Option. -/
structure Manifest where
  name : Option String := none
  author : Option String := none
  dependencies : Option (List (String × String)) := none
  devDependencies : Option (List (String × String)) := none
deriving Repr, DecidableEq

/-- Look a key up in a dependency association list (JS bracket access on
a parsed JSON object). -/
def depLookup (deps : List (String × String)) (k : String) : Option String :=
  (deps.find? fun p => p.1 == k).map Prod.snd

/-- JS truthiness of `packageJson.dependencies && packageJson.dependencies[k]`:
the dependencies map exists, holds the key, and its value is a nonempty
string (an empty string is falsy in JavaScript). -/
def hasTruthyDep (m : Manifest) (k : String) : Bool :=
  match m.dependencies with
  | some deps =>
    match depLookup deps k with
    | some v => v != ""
    | none => false
  | none => false

/-- Spec-side notion used to state claims about a manifest "containing" a
dependency key: the key is listed in either the dependencies or the
devDependencies map. -/
def manifestListsDep (m : Manifest) (k : String) : Bool :=
  (((m.dependencies.getD []).map Prod.fst)
    ++ ((m.devDependencies.getD []).map Prod.fst)).contains k

/-- The state the Inspector reads: parsed manifest (none = file absent),
marker-file existence flags, the primitive outcomes of the content
searches run through the external find command, git-config output
(empty string = unset), and the current directory basename. -/
structure FS where
  packageJson : Option Manifest := none
  pomExists : Bool := false
  requirementsExists : Bool := false
  goModExists : Bool := false
  cargoExists : Bool := false
  cdkJsonExists : Bool := false
  tsStackConstructMatch : Bool := false
  yamlTemplateMarker : Bool := false
  ymlTemplateMarker : Bool := false
  jsonTemplateMarker : Bool := false
  tfFilesFound : Bool := false
  tfstateExists : Bool := false
  serverlessYmlExists : Bool := false
  serverlessYamlExists : Bool := false
  scanFiles : List (String × String) := []
  gitRemoteUrl : String := ""
  gitUserEmail : String := ""
  cwdBasename : String := ""
  gitIgnore : Option String := none
  costControlsDirExists : Bool := false
deriving Repr

/-- connect.js detectProjectType (lines 99-117): first-match-wins chain
over the manifest's dependencies map and the marker files. -/
def detectProjectType (fs : FS) : String :=
  match fs.packageJson with
  | some packageJson =>
    if hasTruthyDep packageJson "aws-cdk-lib" then "cdk-typescript"
    else if hasTruthyDep packageJson "aws-sdk" then "nodejs-aws"
    else "nodejs"
  | none =>
    if fs.pomExists then "java-maven"
    else if fs.requirementsExists then "python"
    else if fs.goModExists then "golang"
    else if fs.cargoExists then "rust"
    else "unknown"

/-- connect.js detectInfrastructure (lines 119-145), straight-line core
over the four check outcomes: each true condition appends its label, then
the list is joined with a comma-space separator, or the literal
none-detected string when empty. -/
def infraFromFlags (cdk cfn tf sls : Bool) : String :=
  let patterns : List String := []
  let patterns := if cdk then patterns ++ ["aws-cdk"] else patterns
  let patterns := if cfn then patterns ++ ["cloudformation"] else patterns
  let patterns := if tf then patterns ++ ["terraform"] else patterns
  let patterns := if sls then patterns ++ ["serverless"] else patterns
  if patterns.length > 0 then String.intercalate ", " patterns else "none-detected"

/-- connect.js detectInfrastructure: the four check conditions read from
the filesystem state exactly as in the source (cdk.json or a
Stack/Construct match in .ts files; an AWSTemplateFormatVersion marker in
.yaml/.yml/.json files; .tf files or terraform.tfstate; serverless.yml or
serverless.yaml). -/
def detectInfrastructure (fs : FS) : String :=
  infraFromFlags
    (fs.cdkJsonExists || fs.tsStackConstructMatch)
    (fs.yamlTemplateMarker || fs.ymlTemplateMarker || fs.jsonTemplateMarker)
    (fs.tfFilesFound || fs.tfstateExists)
    (fs.serverlessYmlExists || fs.serverlessYamlExists)

/-- The four infrastructure checks of detectInfrastructure as
(label, outcome) pairs, in source order; used to state claims about
which labels appear in the result. -/
def infraChecks (fs : FS) : List (String × Bool) :=
  [("aws-cdk", fs.cdkJsonExists || fs.tsStackConstructMatch),
   ("cloudformation", fs.yamlTemplateMarker || fs.ymlTemplateMarker || fs.jsonTemplateMarker),
   ("terraform", fs.tfFilesFound || fs.tfstateExists),
   ("serverless", fs.serverlessYmlExists || fs.serverlessYamlExists)]

/-- Spec-side reading of infrastructure detection: collect the labels of
the checks that succeeded, in their fixed order; join them, or return
none-detected when no check succeeded. -/
def infraSpec (fs : FS) : String :=
  let succeeded := ((infraChecks fs).filter fun c => c.2).map Prod.fst
  if succeeded.isEmpty then "none-detected" else String.intercalate ", " succeeded

/-! ### Resource-mention scan (detectExistingResources, lines 169-209)

The five patterns are JavaScript regexes built from literal alternatives
(escaped dots are literal); each carries the g flag and is tested with
RegExp.test, so its lastIndex persists across calls within one scan:
a successful test starts searching at lastIndex and sets lastIndex to the
end of the match; a failed test resets lastIndex to 0.  The model keeps
one lastIndex per pattern and threads it through the file loop exactly as
the engine does. -/

/-- The alternatives of one of the five regex literals (each alternative
is a literal character sequence). -/
abbrev RegexAlts := List (List Char)

/-- Search for the leftmost match of any alternative, attempting start
positions i, i+1, ... on the given suffix of the subject; returns the
end position of the match (RegExp.exec's new lastIndex) when found. -/
def searchFrom (alts : RegexAlts) : Nat → List Char → Option Nat
  | i, suffix =>
    match alts.find? fun a => a.isPrefixOf suffix with
    | some a => some (i + a.length)
    | none =>
      match suffix with
      | [] => none
      | _ :: rest => searchFrom alts (i + 1) rest

/-- RegExp.prototype.test on a g-flagged regex: search from lastIndex;
on success return true and the match end as the new lastIndex, on
failure return false and reset lastIndex to 0. -/
def regexTestG (alts : RegexAlts) (content : List Char) (lastIndex : Nat) : Bool × Nat :=
  match searchFrom alts lastIndex (content.drop lastIndex) with
  | some e => (true, e)
  | none => (false, 0)

/-- Alternatives of /AWS::EC2::Instance|new ec2\.Instance|EC2\.Instance/g -/
def ec2Alts : RegexAlts :=
  ["AWS::EC2::Instance".data, "new ec2.Instance".data, "EC2.Instance".data]

/-- Alternatives of /AWS::RDS::DBInstance|new rds\.Database|RDS\.Database/g -/
def rdsAlts : RegexAlts :=
  ["AWS::RDS::DBInstance".data, "new rds.Database".data, "RDS.Database".data]

/-- Alternatives of /AWS::S3::Bucket|new s3\.Bucket|S3\.Bucket/g -/
def s3Alts : RegexAlts :=
  ["AWS::S3::Bucket".data, "new s3.Bucket".data, "S3.Bucket".data]

/-- Alternatives of /AWS::Lambda::Function|new lambda\.Function|Lambda\.Function/g -/
def lambdaAlts : RegexAlts :=
  ["AWS::Lambda::Function".data, "new lambda.Function".data, "Lambda.Function".data]

/-- Alternatives of /AWS::ElasticLoadBalancingV2|new elbv2\./g -/
def elbAlts : RegexAlts :=
  ["AWS::ElasticLoadBalancingV2".data, "new elbv2.".data]

/-- The patterns object of detectExistingResources, in insertion order
(the order Object.entries iterates). -/
def resourcePatterns : List (String × RegexAlts) :=
  [("EC2 Instances", ec2Alts),
   ("RDS Databases", rdsAlts),
   ("S3 Buckets", s3Alts),
   ("Lambda Functions", lambdaAlts),
   ("Load Balancers", elbAlts)]

/-- Run every pattern once against one file's content, threading each
pattern's lastIndex; returns the resource-type names whose test
succeeded (in pattern order) and the updated per-pattern states. -/
def scanOneFile (content : List Char) :
    List ((String × RegexAlts) × Nat) →
    List String × List ((String × RegexAlts) × Nat)
  | [] => ([], [])
  | (p, li) :: rest =>
    let r := regexTestG p.2 content li
    let tail := scanOneFile content rest
    (if r.1 then p.1 :: tail.1 else tail.1, (p, r.2) :: tail.2)

/-- The file loop of detectExistingResources: for each file, every
pattern that tests true contributes a (resourceType, file) pair. -/
def scanFileList :
    List (String × String) → List ((String × RegexAlts) × Nat) →
    List (String × String)
  | [], _ => []
  | (file, content) :: rest, st =>
    let r := scanOneFile content.data st
    (r.1.map fun t => (t, file)) ++ scanFileList rest r.2

/-- connect.js detectExistingResources: the input list is the file list
produced by the find commands over the scan directories, in scan order,
with (path, content) for each file; files whose path mentions
node_modules are filtered out as in the source, and every pattern object
starts with lastIndex 0. -/
def detectExistingResources (files : List (String × String)) :
    List (String × String) :=
  scanFileList (files.filter fun f => !(strIncludes f.1 "node_modules"))
    (resourcePatterns.map fun p => (p, 0))

/-- connect.js calculateDefaultBudget (lines 278-291): 100 baseline, plus
100 when more than ten mentions, plus 50 when some mention's type
contains RDS, plus 30 when some mention's type contains Load Balancer. -/
def calculateDefaultBudget (existingResources : List (String × String)) : Nat :=
  let baseBudget := 100
  let resourceCount := existingResources.length
  let hasDatabase := existingResources.any fun r => strIncludes r.1 "RDS"
  let hasLoadBalancer := existingResources.any fun r => strIncludes r.1 "Load Balancer"
  let b1 := if resourceCount > 10 then baseBudget + 100 else baseBudget
  let b2 := if hasDatabase then b1 + 50 else b1
  if hasLoadBalancer then b2 + 30 else b2

/-! ### Project-name resolution (detectProjectName, lines 234-252) -/

/-- The characters after the last slash, or none when no slash occurs. -/
def lastSlashTail : List Char → Option (List Char)
  | [] => none
  | c :: rest =>
    match lastSlashTail rest with
    | some t => some t
    | none => if c = '/' then some rest else none

/-- Group 1 of the URL regex: one trailing .git run is dropped exactly
when dropping it leaves the group nonempty (the lazy group must match at
least one character, so a basename that is literally .git is kept). -/
def stripDotGit (t : List Char) : List Char :=
  if ".git".data.isSuffixOf t && t != ".git".data then t.take (t.length - 4) else t

/-- connect.js detectProjectName's git branch applies
url.match against the regex (slash, lazy nonempty non-slash group,
optional .git, end anchor) and uses group 1.  The match, when it exists,
sits at the last slash of the URL, so group 1 is the nonempty tail after
the last slash with stripDotGit applied; no slash, or nothing after the
last slash, means no match (an empty URL is falsy and skipped before
matching). -/
def gitRemoteBasename (url : String) : Option String :=
  match lastSlashTail url.data with
  | none => none
  | some [] => none
  | some t => some (String.mk (stripDotGit t))

/-- The git-remote / directory-basename fallback chain of
detectProjectName, used when the manifest yields no name. -/
def projectNameFromGit (fs : FS) : String :=
  match gitRemoteBasename fs.gitRemoteUrl with
  | some b => b
  | none => fs.cwdBasename

/-- connect.js detectProjectName: manifest name field when truthy, else
the git-remote basename, else the current directory basename. -/
def detectProjectName (fs : FS) : String :=
  match fs.packageJson with
  | some packageJson =>
    match packageJson.name with
    | some n => if n != "" then n else projectNameFromGit fs
    | none => projectNameFromGit fs
  | none => projectNameFromGit fs

/-- The manifest name candidate of detectProjectName as an Option: the
name field when present and truthy. -/
def usableManifestName (fs : FS) : Option String :=
  match fs.packageJson with
  | some m =>
    match m.name with
    | some n => if n != "" then some n else none
    | none => none
  | none => none

/-! ### Alert-email resolution (detectAlertEmail, lines 254-276) -/

/-- Take the characters before the first greater-than sign, or none when
there is no greater-than sign at all. -/
def takeUntilGt : List Char → Option (List Char)
  | [] => none
  | c :: rest =>
    if c = '>' then some []
    else (takeUntilGt rest).map fun seg => c :: seg

/-- Does the segment contain an at-sign at a position with at least one
character before it and one after it inside the segment? This is what
the angle-bracket regex requires of the bracketed text: group 1 is
a nonempty run, an at-sign, then another nonempty run of characters
other than the closing bracket. -/
def segmentHasInnerAt (seg : List Char) : Bool :=
  ((seg.drop 1).dropLast).contains '@'

/-- Semantics of author.match applied to the angle-bracket email regex:
scan for the leftmost less-than sign whose segment (up to the first
following greater-than sign) contains a properly inner at-sign; the
captured group is that whole segment. If a less-than sign has no
closing bracket anywhere after it, no later start can complete a match
either, so the scan stops. -/
def findAngleEmail : List Char → Option (List Char)
  | [] => none
  | c :: rest =>
    if c = '<' then
      match takeUntilGt rest with
      | some seg => if segmentHasInnerAt seg then some seg else findAngleEmail rest
      | none => none
    else findAngleEmail rest

/-- The manifest-author email candidate of detectAlertEmail: the
angle-bracket extraction from a present, truthy author field (parse
failures and non-string author fields are swallowed by the source's
try/catch and yield no candidate). -/
def authorEmail (fs : FS) : Option String :=
  match fs.packageJson with
  | some m =>
    match m.author with
    | some a =>
      if a != "" then (findAngleEmail a.data).map String.mk else none
    | none => none
  | none => none

/-- connect.js detectAlertEmail: the git user.email when truthy and
containing an at-sign, else the manifest author extraction, else the
literal fallback address. -/
def detectAlertEmail (fs : FS) : String :=
  if fs.gitUserEmail != "" && strIncludes fs.gitUserEmail "@" then
    fs.gitUserEmail
  else
    match authorEmail fs with
    | some e => e
    | none => "admin@company.com"

/-! ### Per-environment resource limits (getResourceLimits, lines 857-877) -/

/-- One row of the limits table of getResourceLimits. -/
structure ResourceLimits where
  maxInstanceTypes : List String
  maxVolumeSize : Nat
  maxMonthlyCost : Nat
deriving Repr, DecidableEq

/-- The dev row of the limits object. -/
def devLimits : ResourceLimits :=
  { maxInstanceTypes := ["t3.micro", "t3.small"]
    maxVolumeSize := 100
    maxMonthlyCost := 100 }

/-- The staging row of the limits object. -/
def stagingLimits : ResourceLimits :=
  { maxInstanceTypes := ["t3.micro", "t3.small", "t3.medium"]
    maxVolumeSize := 500
    maxMonthlyCost := 300 }

/-- The prod row of the limits object. -/
def prodLimits : ResourceLimits :=
  { maxInstanceTypes := ["t3.small", "t3.medium", "t3.large", "m5.large", "m5.xlarge"]
    maxVolumeSize := 2000
    maxMonthlyCost := 1000 }

/-- The limits object literal, as a keyed table in declaration order. -/
def limitsTable : List (String × ResourceLimits) :=
  [("dev", devLimits), ("staging", stagingLimits), ("prod", prodLimits)]

/-- Result of the JS property access limits[environment]: one of the
object literal's own rows, or a truthy value inherited from
Object.prototype. Bracket access on an object literal traverses the
prototype chain, and every Object.prototype property is truthy (a
built-in function, or the prototype object itself for the accessor), so
an inherited value survives the || fallback and is returned as-is. -/
inductive LimitsLookup where
  | row (r : ResourceLimits)
  | protoValue (name : String)
deriving Repr, DecidableEq

/-- The property names an object literal inherits from Object.prototype,
each bound to a truthy value. -/
def objectPrototypeKeys : List String :=
  ["constructor", "hasOwnProperty", "isPrototypeOf", "propertyIsEnumerable",
   "toLocaleString", "toString", "valueOf",
   "__defineGetter__", "__defineSetter__", "__lookupGetter__", "__lookupSetter__",
   "__proto__"]

/-- connect.js getResourceLimits: the access limits[environment] finds
an own row of the literal first; otherwise it walks the prototype
chain, so an Object.prototype property name yields that inherited
truthy value, and the || fallback to the dev row fires only when the
access yields undefined — that is, for strings that are neither own
keys nor inherited property names. -/
def getResourceLimits (environment : String) : LimitsLookup :=
  match (limitsTable.find? fun p => p.1 == environment).map Prod.snd with
  | some r => LimitsLookup.row r
  | none =>
    if objectPrototypeKeys.contains environment then LimitsLookup.protoValue environment
    else LimitsLookup.row devLimits

/-! ### Top-level flow (connect, lines 36-74, and analyzeProject, 76-97) -/

/-- The message of the one fatal, user-facing error of analyzeProject. -/
def noProjectMsg : String :=
  "No package.json, pom.xml, or requirements.txt found. Please run this in your project root."

/-- The result of the analysis step. -/
structure AnalyzeResult where
  projectType : String
  infrastructure : String
  existingResources : List (String × String)
deriving Repr

/-- connect.js analyzeProject: throw the fatal error when none of
package.json, pom.xml and requirements.txt exists, otherwise run the
three detections. -/
def analyzeProject (fs : FS) : Except String AnalyzeResult :=
  if fs.packageJson.isNone && !fs.pomExists && !fs.requirementsExists then
    Except.error noProjectMsg
  else
    Except.ok
      { projectType := detectProjectType fs
        infrastructure := detectInfrastructure fs
        existingResources := detectExistingResources fs.scanFiles }

/-- The configuration record gathered by steps 1 and 2 of connect. -/
structure ProjectConfig where
  projectType : String
  infrastructure : String
  existingResources : List (String × String)
  projectName : String
  environment : String
  costCenter : String
  owner : String
  budget : Nat
  alertEmail : String
deriving Repr, DecidableEq

/-- connect.js gatherConfiguration: fixed environment, cost-center and
owner defaults, plus the detected name, budget and alert email. -/
def gatherConfiguration (fs : FS) (a : AnalyzeResult) : ProjectConfig :=
  { projectType := a.projectType
    infrastructure := a.infrastructure
    existingResources := a.existingResources
    projectName := detectProjectName fs
    environment := "dev"
    costCenter := "engineering"
    owner := "devops-team"
    budget := calculateDefaultBudget a.existingResources
    alertEmail := detectAlertEmail fs }

/-- The .gitignore entries of updateGitIgnore. -/
def gitIgnoreEntries : List String :=
  ["# Cost Control Template", "cost-control-stack.json", "deployment-report-*.json"]

/-- File writes performed by updateGitIgnore: create .gitignore when
absent, append to it when some entry is missing from it, otherwise
touch nothing. -/
def gitIgnoreWrites (fs : FS) : List String :=
  match fs.gitIgnore with
  | some content =>
    if (gitIgnoreEntries.filter fun e => !(strIncludes content e)).length > 0 then
      [".gitignore"]
    else []
  | none => [".gitignore"]

/-- The filesystem paths written by steps 3-5 of connect once analysis
has succeeded, in program order: the cost-controls directory (when
absent) and its two generated modules, the deployment wrapper script,
the package.json update (only when a package.json exists), the main
configuration file, and the .gitignore update. -/
def connectWrites (fs : FS) : List String :=
  (if fs.costControlsDirExists then [] else ["cost-controls"])
    ++ ["cost-controls/cost-control-utils.js",
        "cost-controls/cost-estimator.js",
        "deploy-with-cost-controls.js"]
    ++ (if fs.packageJson.isSome then ["package.json"] else [])
    ++ ["cost-controls-config.json"]
    ++ gitIgnoreWrites fs

/-- connect.js connect: run analyzeProject first; its error aborts the
run before any write happens, otherwise the remaining steps build the
configuration record and perform the writes. -/
def connect (fs : FS) : Except String ProjectConfig × List String :=
  match analyzeProject fs with
  | Except.error e => (Except.error e, [])
  | Except.ok a => (Except.ok (gatherConfiguration fs a), connectWrites fs)

/-! ## Theorems -/

/-- Closed form of calculateDefaultBudget: the four contributions are
independent additive terms. -/
lemma calculateDefaultBudget_eq (rs : List (String × String)) :
    calculateDefaultBudget rs =
      100 + (if rs.length > 10 then 100 else 0)
        + (if rs.any fun r => strIncludes r.1 "RDS" then 50 else 0)
        + (if rs.any fun r => strIncludes r.1 "Load Balancer" then 30 else 0) := by
  unfold calculateDefaultBudget
  by_cases h1 : rs.length > 10 <;>
    by_cases h2 : (rs.any fun r => strIncludes r.1 "RDS") = true <;>
      by_cases h3 : (rs.any fun r => strIncludes r.1 "Load Balancer") = true <;>
        simp [h1, h2, h3]

/-- A twelve-entry mention list with one RDS mention and one
load-balancer mention. -/
def twelveMentions : List (String × String) :=
  [("S3 Buckets", "a.ts"), ("S3 Buckets", "b.ts"), ("S3 Buckets", "c.ts"),
   ("S3 Buckets", "d.ts"), ("S3 Buckets", "e.ts"), ("S3 Buckets", "f.ts"),
   ("Lambda Functions", "g.ts"), ("Lambda Functions", "h.ts"),
   ("EC2 Instances", "i.ts"), ("EC2 Instances", "j.ts"),
   ("RDS Databases", "k.ts"), ("Load Balancers", "l.ts")]

/-- C4: calculateDefaultBudget returns exactly 100, plus 100 when the
list has more than 10 entries, plus 50 when some entry's category
contains RDS, plus 30 when some entry's category contains Load Balancer;
in particular 100 on the empty list and 280 on a 12-entry list with one
RDS and one load-balancer mention. -/
theorem calculateDefaultBudget_spec :
    (∀ rs : List (String × String),
      calculateDefaultBudget rs =
        100 + (if rs.length > 10 then 100 else 0)
          + (if rs.any fun r => strIncludes r.1 "RDS" then 50 else 0)
          + (if rs.any fun r => strIncludes r.1 "Load Balancer" then 30 else 0))
    ∧ calculateDefaultBudget [] = 100
    ∧ calculateDefaultBudget twelveMentions = 280 :=
  ⟨calculateDefaultBudget_eq, by decide, by decide⟩

/-- C5: calculateDefaultBudget is monotonic non-decreasing under
appending one more mention, whatever its category; adding an RDS or a
load-balancer mention is the special case of this statement. -/
theorem calculateDefaultBudget_monotone :
    ∀ (rs : List (String × String)) (r : String × String),
      calculateDefaultBudget rs ≤ calculateDefaultBudget (rs ++ [r]) := by
  intro rs r
  rw [calculateDefaultBudget_eq, calculateDefaultBudget_eq]
  simp only [List.length_append, List.any_append, List.any_cons, List.any_nil,
    Bool.or_false, List.length_cons, List.length_nil]
  by_cases h1 : rs.length > 10 <;>
    by_cases h2 : (rs.any fun r => strIncludes r.1 "RDS") = true <;>
      by_cases h3 : (rs.any fun r => strIncludes r.1 "Load Balancer") = true <;>
        simp [h1, h2, h3] <;> split_ifs <;> omega

/-- Manifest that lists the CDK library only under devDependencies while
its dependencies map holds an unrelated package. -/
def cdkDevOnlyManifest : Manifest :=
  { name := some "demo-app"
    dependencies := some [("left-pad", "1.3.0")]
    devDependencies := some [("aws-cdk-lib", "2.118.0")] }

/-- Filesystem state whose package.json is cdkDevOnlyManifest. -/
def cdkDevOnlyFS : FS := { packageJson := some cdkDevOnlyManifest }

/-- C1 counterexample: a manifest containing the CDK-library dependency
key (under devDependencies) for which detectProjectType returns nodejs,
not cdk-typescript — the source only consults the dependencies map. -/
theorem detectProjectType_cdk_claim_false :
    manifestListsDep cdkDevOnlyManifest "aws-cdk-lib" = true
      ∧ detectProjectType cdkDevOnlyFS = "nodejs"
      ∧ detectProjectType cdkDevOnlyFS ≠ "cdk-typescript" := by
  refine ⟨by decide, by decide, by decide⟩

/-- C1 (amended): for every manifest whose dependencies map holds the
CDK-library key with a truthy (nonempty) version value, detectProjectType
returns cdk-typescript, regardless of every other entry of the
dependencies and devDependencies maps. -/
theorem detectProjectType_cdk_dep :
    ∀ (fs : FS) (m : Manifest), fs.packageJson = some m →
      hasTruthyDep m "aws-cdk-lib" = true →
      detectProjectType fs = "cdk-typescript" := by
  intro fs m hm hdep
  simp [detectProjectType, hm, hdep]

/-- Manifest carrying the CDK key in dependencies next to unrelated
entries in both maps. -/
def cdkDepManifest : Manifest :=
  { dependencies := some [("express", "4.18.0"), ("aws-cdk-lib", "2.118.0"), ("aws-sdk", "2.1400.0")]
    devDependencies := some [("typescript", "5.2.0")] }

/-- Filesystem state whose package.json is cdkDepManifest. -/
def cdkDepFS : FS := { packageJson := some cdkDepManifest }

/-- Witness for the amended C1 at a concrete manifest. -/
theorem detectProjectType_cdk_dep_witness :
    detectProjectType cdkDepFS = "cdk-typescript" :=
  detectProjectType_cdk_dep cdkDepFS cdkDepManifest rfl (by decide)

/-- C2: the classification is a first-match-wins chain in the priority
order cdk-typescript, nodejs-aws, nodejs (manifest present), then
java-maven, python, golang, rust by marker file, then unknown. -/
theorem detectProjectType_priority_chain :
    ∀ (fs : FS) (m : Manifest),
      (fs.packageJson = some m → hasTruthyDep m "aws-cdk-lib" = true →
        detectProjectType fs = "cdk-typescript")
      ∧ (fs.packageJson = some m → hasTruthyDep m "aws-cdk-lib" = false →
          hasTruthyDep m "aws-sdk" = true → detectProjectType fs = "nodejs-aws")
      ∧ (fs.packageJson = some m → hasTruthyDep m "aws-cdk-lib" = false →
          hasTruthyDep m "aws-sdk" = false → detectProjectType fs = "nodejs")
      ∧ (fs.packageJson = none → fs.pomExists = true →
          detectProjectType fs = "java-maven")
      ∧ (fs.packageJson = none → fs.pomExists = false →
          fs.requirementsExists = true → detectProjectType fs = "python")
      ∧ (fs.packageJson = none → fs.pomExists = false →
          fs.requirementsExists = false → fs.goModExists = true →
          detectProjectType fs = "golang")
      ∧ (fs.packageJson = none → fs.pomExists = false →
          fs.requirementsExists = false → fs.goModExists = false →
          fs.cargoExists = true → detectProjectType fs = "rust")
      ∧ (fs.packageJson = none → fs.pomExists = false →
          fs.requirementsExists = false → fs.goModExists = false →
          fs.cargoExists = false → detectProjectType fs = "unknown") := by
  intro fs m
  refine ⟨?_, ?_, ?_, ?_, ?_, ?_, ?_, ?_⟩ <;> intros <;> simp [detectProjectType, *]

/-- Manifest with only the generic cloud-SDK dependency. -/
def sdkOnlyManifest : Manifest := { dependencies := some [("aws-sdk", "2.1400.0")] }

/-- Filesystem state whose package.json is sdkOnlyManifest. -/
def sdkOnlyFS : FS := { packageJson := some sdkOnlyManifest }

/-- Filesystem state with no manifest and only a pom.xml. -/
def pomOnlyFS : FS := { pomExists := true }

/-- Witness for C2 at concrete states: the aws-sdk-only manifest yields
nodejs-aws and the pom.xml-only directory yields java-maven. -/
theorem detectProjectType_priority_chain_witness :
    detectProjectType sdkOnlyFS = "nodejs-aws"
      ∧ detectProjectType pomOnlyFS = "java-maven" :=
  ⟨(detectProjectType_priority_chain sdkOnlyFS sdkOnlyManifest).2.1 rfl
      (by decide) (by decide),
   (detectProjectType_priority_chain pomOnlyFS { }).2.2.2.1 rfl rfl⟩

/-- C3: the top-level run yields the single fatal, user-facing error
exactly when none of package.json, pom.xml and requirements.txt exists,
and in that case the write log is empty. The error branch of the model
is taken before the detection results are consumed, mirroring the
source, where the existence check is the first statement of step 1. -/
theorem connect_fatal_error :
    ∀ fs : FS,
      ((connect fs).1 = Except.error noProjectMsg ↔
        fs.packageJson = none ∧ fs.pomExists = false ∧ fs.requirementsExists = false)
      ∧ ((connect fs).1 = Except.error noProjectMsg → (connect fs).2 = []) := by
  intro fs
  rcases hpj : fs.packageJson with _ | m <;>
    cases hpom : fs.pomExists <;>
      cases hreq : fs.requirementsExists <;>
        simp [connect, analyzeProject, hpj, hpom, hreq]

/-- A directory with none of the three marker files. -/
def emptyDirFS : FS := { }

/-- Witness for C3: on the empty directory the run fails with the fatal
error and writes nothing. -/
theorem connect_fatal_error_witness :
    (connect emptyDirFS).1 = Except.error noProjectMsg ∧ (connect emptyDirFS).2 = [] :=
  ⟨(connect_fatal_error emptyDirFS).1.mpr ⟨rfl, rfl, rfl⟩,
   (connect_fatal_error emptyDirFS).2
     ((connect_fatal_error emptyDirFS).1.mpr ⟨rfl, rfl, rfl⟩)⟩

/-- A string containing an at-sign is nonempty. -/
lemma strIncludes_at_ne_empty (s : String) (h : strIncludes s "@" = true) :
    (s != "") = true := by
  rcases eq_or_ne s "" with he | hne
  · subst he; exact absurd h (by decide)
  · simpa [bne_iff_ne] using hne

/-- C6: alert-email resolution prefers the git user.email whenever it
contains an at-sign (JavaScript truthiness adds no further condition:
a string containing an at-sign is nonempty); otherwise the author-field
angle-bracket extraction when it yields an email; otherwise the literal
fallback address. -/
theorem detectAlertEmail_priority :
    ∀ fs : FS,
      (strIncludes fs.gitUserEmail "@" = true →
        detectAlertEmail fs = fs.gitUserEmail)
      ∧ (strIncludes fs.gitUserEmail "@" = false →
          ∀ e, authorEmail fs = some e → detectAlertEmail fs = e)
      ∧ (strIncludes fs.gitUserEmail "@" = false → authorEmail fs = none →
          detectAlertEmail fs = "admin@company.com") := by
  intro fs
  refine ⟨?_, ?_, ?_⟩
  · intro h
    simp [detectAlertEmail, h, strIncludes_at_ne_empty fs.gitUserEmail h]
  · intro h e he
    simp [detectAlertEmail, h, he]
  · intro h he
    simp [detectAlertEmail, h, he]

/-- State where a valid git email, a manifest author email and the
fallback compete. -/
def allEmailsFS : FS :=
  { gitUserEmail := "dev@example.org"
    packageJson := some { author := some "Jane Doe <jane@example.com>" } }

/-- State where the git email is invalid (no at-sign) and the manifest
author carries an angle-bracket email. -/
def authorEmailFS : FS :=
  { gitUserEmail := "not-an-email"
    packageJson := some { author := some "Jane Doe <jane@example.com>" } }

/-- Witness for C6: with all candidates present the git email wins; with
an at-sign-free git email the author extraction wins. -/
theorem detectAlertEmail_priority_witness :
    detectAlertEmail allEmailsFS = "dev@example.org"
      ∧ detectAlertEmail authorEmailFS = "jane@example.com" :=
  ⟨(detectAlertEmail_priority allEmailsFS).1 (by decide),
   (detectAlertEmail_priority authorEmailFS).2.1 (by decide)
     "jane@example.com" (by decide)⟩

/-- C7: infrastructure detection agrees with the spec-side reading — the
comma-joined labels of exactly the checks that succeeded, in the fixed
order aws-cdk, cloudformation, terraform, serverless — and returns the
none-detected literal precisely when every check failed. -/
theorem detectInfrastructure_matches :
    ∀ fs : FS,
      detectInfrastructure fs = infraSpec fs
      ∧ (detectInfrastructure fs = "none-detected" ↔
          (infraChecks fs).all (fun ch => !ch.2) = true) := by
  intro fs
  cases hA : (fs.cdkJsonExists || fs.tsStackConstructMatch) <;>
    cases hB : (fs.yamlTemplateMarker || fs.ymlTemplateMarker || fs.jsonTemplateMarker) <;>
      cases hC : (fs.tfFilesFound || fs.tfstateExists) <;>
        cases hD : (fs.serverlessYmlExists || fs.serverlessYamlExists) <;>
          refine ⟨?_, ?_⟩ <;>
            simp [detectInfrastructure, infraSpec, infraChecks, infraFromFlags,
              hA, hB, hC, hD, String.intercalate] <;>
              decide

/-- C8: project-name resolution returns the manifest name when present
and nonempty, else the git-remote basename (trailing .git stripped by
the regex) when the URL yields one, else the directory basename. -/
theorem detectProjectName_priority :
    ∀ fs : FS,
      (∀ n, usableManifestName fs = some n → detectProjectName fs = n)
      ∧ (usableManifestName fs = none →
          ∀ b, gitRemoteBasename fs.gitRemoteUrl = some b → detectProjectName fs = b)
      ∧ (usableManifestName fs = none → gitRemoteBasename fs.gitRemoteUrl = none →
          detectProjectName fs = fs.cwdBasename) := by
  intro fs
  refine ⟨?_, ?_, ?_⟩
  · intro n hn
    rcases hpj : fs.packageJson with _ | m
    · simp [usableManifestName, hpj] at hn
    · rcases hname : m.name with _ | nm
      · simp [usableManifestName, hpj, hname] at hn
      · cases hne : (nm != "")
        · simp [usableManifestName, hpj, hname, hne] at hn
        · have hnm : nm = n := by
            simpa [usableManifestName, hpj, hname, hne] using hn
          subst hnm
          simp [detectProjectName, hpj, hname, hne]
  · intro h b hb
    rcases hpj : fs.packageJson with _ | m
    · simp [detectProjectName, hpj, projectNameFromGit, hb]
    · rcases hname : m.name with _ | nm
      · simp [detectProjectName, hpj, hname, projectNameFromGit, hb]
      · cases hne : (nm != "")
        · simp [detectProjectName, hpj, hname, hne, projectNameFromGit, hb]
        · simp [usableManifestName, hpj, hname, hne] at h
  · intro h hb
    rcases hpj : fs.packageJson with _ | m
    · simp [detectProjectName, hpj, projectNameFromGit, hb]
    · rcases hname : m.name with _ | nm
      · simp [detectProjectName, hpj, hname, projectNameFromGit, hb]
      · cases hne : (nm != "")
        · simp [detectProjectName, hpj, hname, hne, projectNameFromGit, hb]
        · simp [usableManifestName, hpj, hname, hne] at h

/-- State with a named manifest and a competing git remote. -/
def namedManifestFS : FS :=
  { packageJson := some { name := some "my-app" }
    gitRemoteUrl := "https://github.com/acme/widget.git"
    cwdBasename := "checkout-dir" }

/-- State with no manifest name and a .git-suffixed remote URL. -/
def gitNamedFS : FS :=
  { gitRemoteUrl := "https://github.com/acme/widget.git"
    cwdBasename := "checkout-dir" }

/-- Witness for C8: the manifest name wins when present; without it the
remote basename is used with its .git suffix stripped. -/
theorem detectProjectName_priority_witness :
    detectProjectName namedManifestFS = "my-app"
      ∧ detectProjectName gitNamedFS = "widget" :=
  ⟨(detectProjectName_priority namedManifestFS).1 "my-app" (by decide),
   (detectProjectName_priority gitNamedFS).2.1 (by decide) "widget" (by decide)⟩

/-- Two files, both containing an EC2 instance mention at position 0. -/
def twoMatchingFiles : List (String × String) :=
  [("src/a.ts", "AWS::EC2::Instance"), ("src/b.ts", "AWS::EC2::Instance")]

/-- C9 failing input: the second of two files with identical matching
content gets no pair. The EC2 regex matches the content from a fresh
state (first conjunct), and the first file receives its pair; but the
g-flagged regex keeps its lastIndex (18, the end of the first match)
across RegExp.test calls, so the test on the second file starts past its
content, fails, and no pair for src/b.ts is appended — the scan does not
append a pair for every matching file, and equal pairs from equal files
are not kept. -/
theorem detectExistingResources_skips_matching_file :
    (regexTestG ec2Alts "AWS::EC2::Instance".data 0).1 = true
      ∧ detectExistingResources twoMatchingFiles = [("EC2 Instances", "src/a.ts")]
      ∧ ("EC2 Instances", "src/b.ts") ∉ detectExistingResources twoMatchingFiles :=
  ⟨by decide, by decide, by decide⟩

/-- C10 counterexample: for the unrecognized environment string
constructor, bracket access hits the inherited, truthy
Object.prototype property, so the source returns that value and not
the dev limits row — the claimed for-all fallback is false of the
program. -/
theorem getResourceLimits_proto_counterexample :
    getResourceLimits "constructor" = LimitsLookup.protoValue "constructor"
      ∧ getResourceLimits "constructor" ≠ LimitsLookup.row devLimits :=
  ⟨by decide, by decide⟩

/-- C10 (amended): getResourceLimits returns the dev, staging and prod
rows for those environment strings, and the dev row for every other
string that is not the name of a property inherited from
Object.prototype (for those names it returns the inherited truthy
value instead, as the counterexample exhibits). -/
theorem getResourceLimits_env_rows :
    getResourceLimits "dev" = LimitsLookup.row devLimits
      ∧ getResourceLimits "staging" = LimitsLookup.row stagingLimits
      ∧ getResourceLimits "prod" = LimitsLookup.row prodLimits
      ∧ ∀ env : String, env ≠ "dev" → env ≠ "staging" → env ≠ "prod" →
          objectPrototypeKeys.contains env = false →
          getResourceLimits env = LimitsLookup.row devLimits := by
  refine ⟨by decide, by decide, by decide, ?_⟩
  intro env h1 h2 h3 hproto
  have hd : (("dev" : String) == env) = false := beq_eq_false_iff_ne.mpr (Ne.symm h1)
  have hs : (("staging" : String) == env) = false := beq_eq_false_iff_ne.mpr (Ne.symm h2)
  have hp : (("prod" : String) == env) = false := beq_eq_false_iff_ne.mpr (Ne.symm h3)
  simp [getResourceLimits, limitsTable, List.find?, hd, hs, hp]
  simpa using hproto

/-- Witness for the amended C10 at a concrete environment string that
is neither an own key nor an inherited property name. -/
theorem getResourceLimits_env_rows_witness :
    getResourceLimits "qa" = LimitsLookup.row devLimits :=
  getResourceLimits_env_rows.2.2.2 "qa" (by decide) (by decide) (by decide) (by decide)

end CostConnect
